import Mathlib

/-!
# Verification of the Browser tab/view lifecycle manager

Shallow embedding of the `Browser` class (tab manager), the `Tab` entity and
the relevant IPC handlers of the repository.  JavaScript state is modelled as
an explicit `BrowserState` record threaded through each operation; the Electron
main window's list of attached browser views is the `attached` field, and the
event emitter is modelled as an append-only log `events`.  Nondeterministic
external inputs (the renderer's reply to `getWCVCurrentBounds`, the main
window's content bounds, and the random id produced for a new tab) are passed
in as explicit parameters (`Env`, the `id` argument of `createTab`).

`currentTab` holds the id of the current tab; the source stores the `Tab`
object itself, which is equivalent as long as ids identify tabs, and all
id-sensitive theorems below carry the needed uniqueness hypotheses.
-/

/-- A geometry rectangle `{x, y, width, height}` (JS numbers, no arithmetic is
performed on them by the tab manager, so `Int` suffices). -/
structure Bounds where
  x : Int
  y : Int
  width : Int
  height : Int
deriving DecidableEq, Repr

/-- The `Tab` entity (`src/src/main/tab.ts`): a stable id, the url given at
creation, the optional user-agent override, the cached favicon, and the state
of its `BrowserView` that the manager mutates (its bounds, set by
`view.setBounds`, and the frame rate set by `webContents.setFrameRate`). -/
structure Tab where
  id : String
  url : String
  userAgent : Option String
  favicon : Option String
  bounds : Bounds
  frameRate : Option Nat
deriving DecidableEq, Repr

/-- Events emitted on `browser.events` that the claims mention. -/
inductive BEvent where
  | tabsUpdated
  | activeTabChanged (id : Option String)
  | tabInfoUpdated (id : String)
deriving DecidableEq, Repr

/-- The mutable state of one `Browser` instance plus the part of the main
window it drives: `attached` is the list of ids whose views are currently
added to the main window (`mainWindow.getBrowserViews()`), `events` the log of
emitted events. -/
structure BrowserState where
  tabs : List Tab
  currentTab : Option String
  lastKnownBounds : Option Bounds
  attached : List String
  events : List BEvent
deriving DecidableEq, Repr

/-- External inputs consumed during one operation: the renderer's validated
reply to the `getWCVCurrentBounds` query (`none` models an invalid reply, an
absent function or a thrown error) and `mainWindow.getContentBounds()`. -/
structure Env where
  rendererBounds : Option Bounds
  contentBounds : Bounds
deriving DecidableEq, Repr

/-- The ids of the live tabs, in collection order. -/
def ids (s : BrowserState) : List String :=
  s.tabs.map Tab.id

/-- `mainWindow.addBrowserView`: attaches a view; attaching an already
attached view does not duplicate it. -/
def addView (id : String) (s : BrowserState) : BrowserState :=
  if id ∈ s.attached then s else { s with attached := s.attached ++ [id] }

/-- `mainWindow.removeBrowserView`: detaches a view; removing a view that is
not attached is a no-op. -/
def removeView (id : String) (s : BrowserState) : BrowserState :=
  { s with attached := s.attached.filter (fun a => a ≠ id) }

/-- Update the first tab satisfying `p` (JS object mutation through the
reference returned by `find`/indexing reaches exactly the first match). -/
def updateFirst (p : Tab → Bool) (f : Tab → Tab) : List Tab → List Tab
  | [] => []
  | t :: ts => if p t then f t :: ts else t :: updateFirst p f ts

/-- Remove the first tab satisfying `p` (`findIndex` + `splice(index, 1)`). -/
def eraseFirst (p : Tab → Bool) : List Tab → List Tab
  | [] => []
  | t :: ts => if p t then ts else t :: eraseFirst p ts

/-- `tab.setBounds(x, y, width, height)` applied to the tab with this id. -/
def setTabBounds (id : String) (b : Bounds) (s : BrowserState) : BrowserState :=
  { s with tabs := updateFirst (fun t => t.id == id) (fun t => { t with bounds := b }) s.tabs }

/-- `view.webContents.setFrameRate(r)` applied to the tab with this id. -/
def setFrameRate (id : String) (r : Nat) (s : BrowserState) : BrowserState :=
  { s with tabs := updateFirst (fun t => t.id == id) (fun t => { t with frameRate := some r }) s.tabs }

/-- `Browser.setLastKnownBounds`. -/
def setLastKnownBounds (b : Bounds) (s : BrowserState) : BrowserState :=
  { s with lastKnownBounds := some b }

/-- `Browser.getInitialBoundsFromRenderer`: queries the renderer; a valid
reply updates `lastKnownBounds` and is returned, otherwise `null`. -/
def getInitialBoundsFromRenderer (env : Env) (s : BrowserState) :
    Option Bounds × BrowserState :=
  match env.rendererBounds with
  | some b => (some b, setLastKnownBounds b s)
  | none => (none, s)

/-- The bounds-resolution block inlined identically in `createTab`
(lines 111-121) and `switchTab` (lines 167-177): cached `lastKnownBounds`,
else a renderer query, else `{x: 0, y: 0, width: content.width,
height: content.height}` from the main window's content bounds. -/
def resolveBoundsQuery (env : Env) (s : BrowserState) : Bounds × BrowserState :=
  match s.lastKnownBounds with
  | some b => (b, s)
  | none =>
    match getInitialBoundsFromRenderer env s with
    | (some b, s1) => (b, s1)
    | (none, s1) => (⟨0, 0, env.contentBounds.width, env.contentBounds.height⟩, s1)

/-- The `Tab` constructed by `Browser.createTab` (favicon starts `undefined`,
no frame rate has been set on the fresh view). -/
def mkTab (id url : String) (ua : Option String) (b : Bounds) : Tab :=
  { id := id, url := url, userAgent := ua, favicon := none, bounds := b, frameRate := none }

/-- `Browser.switchTab(tabId)`: a silent no-op when no tab has this id;
otherwise detaches the previous current view (when different), makes the found
tab current, attaches its view (unless it was already the current, attached
view), applies the three-tier resolved bounds, sets the frame-rate hint and
emits `active-tab-changed`. -/
def switchTab (env : Env) (tabId : String) (s : BrowserState) : BrowserState :=
  match s.tabs.find? (fun t => t.id == tabId) with
  | none => s
  | some _ =>
    let oldCurrentTabId := s.currentTab
    let s1 := match s.currentTab with
      | some cid => if cid ≠ tabId then removeView cid s else s
      | none => s
    let s2 := { s1 with currentTab := some tabId }
    let s3 := if oldCurrentTabId ≠ some tabId ∨ tabId ∉ s2.attached then addView tabId s2 else s2
    let (b, s4) := resolveBoundsQuery env s3
    let s5 := setFrameRate tabId 60 (setTabBounds tabId b s4)
    { s5 with events := s5.events ++ [BEvent.activeTabChanged (some tabId)] }

/-- `Browser.createTab(url, activate, userAgent)`: resolves initial bounds via
the three-tier fallback, appends a fresh tab, optionally activates it via
`switchTab`, and emits `tabs-updated`.  The id produced by the `Tab`
constructor's `Math.random()` expression is passed in as `id`; the returned
`Tab` is the appended `mkTab`. -/
def createTab (env : Env) (id url : String) (activate : Bool) (ua : Option String)
    (s : BrowserState) : BrowserState :=
  let (b, s1) := resolveBoundsQuery env s
  let s2 := { s1 with tabs := s1.tabs ++ [mkTab id url ua b] }
  let s3 := if activate then switchTab env id s2 else s2
  { s3 with events := s3.events ++ [BEvent.tabsUpdated] }

/-- JavaScript `this.currentTab?.id || null`: the empty string is falsy. -/
def jsIdOrNull : Option String → Option String
  | some id => if id = "" then none else some id
  | none => none

/-- `Browser.closeTab(tabId)`: a silent no-op when no tab has this id;
otherwise detaches the closed view, removes the tab, and when the closed tab
was current promotes the first remaining tab (attach, two-tier bounds
`lastKnownBounds`-else-content-bounds, frame-rate hint) or clears
`currentTab`; finally emits `tabs-updated` then `active-tab-changed`. -/
def closeTab (env : Env) (tabId : String) (s : BrowserState) : BrowserState :=
  if (s.tabs.find? (fun t => t.id == tabId)).isSome then
    let s1 := removeView tabId s
    let s2 := { s1 with tabs := eraseFirst (fun t => t.id == tabId) s1.tabs }
    let s3 :=
      if s2.currentTab = some tabId then
        match s2.tabs with
        | [] => { s2 with currentTab := none }
        | t0 :: _ =>
          let sA := addView t0.id { s2 with currentTab := some t0.id }
          let b := match sA.lastKnownBounds with
            | some b => b
            | none => ⟨0, 0, env.contentBounds.width, env.contentBounds.height⟩
          setFrameRate t0.id 60 (setTabBounds t0.id b sA)
      else s2
    { s3 with events := s3.events ++
        [BEvent.tabsUpdated, BEvent.activeTabChanged (jsIdOrNull s3.currentTab)] }
  else s

/-- One entry of the `Browser.getTabs()` projection. -/
structure TabInfo where
  id : String
  title : String
  url : String
  favicon : Option String
deriving DecidableEq, Repr

/-- `Browser.getTabs()`: title and url are read live from each tab's
`webContents` (modelled by the oracles `titleOf`/`urlOf`), favicon from the
cached field. -/
def getTabs (titleOf urlOf : String → String) (s : BrowserState) : List TabInfo :=
  s.tabs.map (fun t => ⟨t.id, titleOf t.id, urlOf t.id, t.favicon⟩)

/-- `Browser.getActiveTabId()`. -/
def getActiveTabId (s : BrowserState) : Option String :=
  s.currentTab

/-- The `update-webview-bounds` IPC handler (`src/src/main/ipc.ts` lines
50-58): only when a current tab exists, set its bounds and cache them. -/
def updateWebviewBounds (b : Bounds) (s : BrowserState) : BrowserState :=
  match s.currentTab with
  | some cid => setLastKnownBounds b (setTabBounds cid b s)
  | none => s

/-- Result of a `setWindowOpenHandler` callback. -/
inductive WindowOpenAction where
  | allow
  | deny
deriving DecidableEq, Repr

/-- The handler installed by the `Tab` constructor (`tab.ts` lines 90-93):
create a tab in the same browser loading the requested url, activated, with no
user-agent override, and deny the native window. -/
def windowOpenHandler (env : Env) (id url : String) (s : BrowserState) :
    BrowserState × WindowOpenAction :=
  (createTab env id url true none s, WindowOpenAction.deny)

/-- The state of a freshly constructed `Browser`. -/
def initState : BrowserState :=
  { tabs := [], currentTab := none, lastKnownBounds := none, attached := [], events := [] }

/-- States reachable from the fresh `Browser` by any sequence of `createTab`,
`switchTab` and `closeTab` operations, with arbitrary external inputs and
arbitrary generated ids at each step. -/
inductive Reachable : BrowserState → Prop where
  | init : Reachable initState
  | create {s} (env : Env) (id url : String) (activate : Bool) (ua : Option String) :
      Reachable s → Reachable (createTab env id url activate ua s)
  | switch {s} (env : Env) (tabId : String) :
      Reachable s → Reachable (switchTab env tabId s)
  | close {s} (env : Env) (tabId : String) :
      Reachable s → Reachable (closeTab env tabId s)

/-- The bounds value the shared three-tier fallback resolves to, as a function
of the cache. -/
def resolvedBounds (env : Env) : Option Bounds → Bounds
  | some b => b
  | none =>
    match env.rendererBounds with
    | some b => b
    | none => ⟨0, 0, env.contentBounds.width, env.contentBounds.height⟩

/-- The cache after the shared three-tier fallback ran. -/
def cacheAfterQuery (env : Env) : Option Bounds → Option Bounds
  | some b => some b
  | none => env.rendererBounds

/-- The two-tier fallback of `closeTab`'s replacement path: cached
`lastKnownBounds`, else the host window's content rectangle - the renderer is
not queried there. -/
def resolvedBoundsNoQuery (env : Env) : Option Bounds → Bounds
  | some b => b
  | none => ⟨0, 0, env.contentBounds.width, env.contentBounds.height⟩

/-- The attached-view list after `switchTab` found its tab, as a function of
the previous current tab and attached list. -/
def switchAttached (tid : String) (cur : Option String) (att : List String) : List String :=
  let att1 := match cur with
    | some cid => if cid = tid then att else att.filter (fun a => a ≠ cid)
    | none => att
  if ¬cur = some tid ∨ tid ∉ att1 then (if tid ∈ att1 then att1 else att1 ++ [tid]) else att1

/-- The attached views of the main window are exactly the current tab's view
(or none): the spec's "at most one Tab's surface is attached" invariant in its
inductive form. -/
def viewInv (s : BrowserState) : Prop :=
  s.attached = s.currentTab.elim [] (fun id => [id])

/-- The variant of `closeTab` described by the spec sentence "runs the same
attach/geometry sequence as `switchTab`'s activation path for the
replacement": identical to `closeTab` except that the replacement's bounds are
resolved through `switchTab`'s three-tier fallback (renderer query included,
cache updated on success) instead of `closeTab`'s two-tier one. -/
def closeTabViaSwitchPath (env : Env) (tabId : String) (s : BrowserState) : BrowserState :=
  if (s.tabs.find? (fun t => t.id == tabId)).isSome then
    let s1 := removeView tabId s
    let s2 := { s1 with tabs := eraseFirst (fun t => t.id == tabId) s1.tabs }
    let s3 :=
      if s2.currentTab = some tabId then
        match s2.tabs with
        | [] => { s2 with currentTab := none }
        | t0 :: _ =>
          let sA := addView t0.id { s2 with currentTab := some t0.id }
          let (b, sB) := resolveBoundsQuery env sA
          setFrameRate t0.id 60 (setTabBounds t0.id b sB)
      else s2
    { s3 with events := s3.events ++
        [BEvent.tabsUpdated, BEvent.activeTabChanged (jsIdOrNull s3.currentTab)] }
  else s

/-- States reachable when every created tab's id is fresh - the intended
semantics of id generation ("process-unique").  `Reachable` above places no
such constraint, matching the source's unchecked `Math.random()` draws. -/
inductive ReachableFresh : BrowserState → Prop where
  | init : ReachableFresh initState
  | create {s} (env : Env) (id url : String) (activate : Bool) (ua : Option String) :
      id ∉ ids s → ReachableFresh s → ReachableFresh (createTab env id url activate ua s)
  | switch {s} (env : Env) (tabId : String) :
      ReachableFresh s → ReachableFresh (switchTab env tabId s)
  | close {s} (env : Env) (tabId : String) :
      ReachableFresh s → ReachableFresh (closeTab env tabId s)

/-- The creation-time identity of each live tab: id, url and user-agent
override, in collection order (the fields `switchTab`/`closeTab` never
touch). -/
def tabKeys (s : BrowserState) : List (String × String × Option String) :=
  s.tabs.map (fun t => (t.id, t.url, t.userAgent))

/-- A sample environment with no renderer reply, for concrete checks. -/
def sampleEnv : Env := ⟨none, ⟨0, 0, 800, 600⟩⟩

/-- A sample environment whose renderer reply is `{1, 2, 3, 4}`. -/
def sampleEnvR : Env := ⟨some ⟨1, 2, 3, 4⟩, ⟨0, 0, 800, 600⟩⟩

/-- A sample state with two tabs "a" and "b", "b" current, for concrete
checks. -/
def sampleTwoTabs : BrowserState :=
  createTab sampleEnv "b" "u2" true none (createTab sampleEnv "a" "u1" true none initState)

/-! ### Field bookkeeping lemmas -/

@[simp] theorem addView_tabs (id : String) (s : BrowserState) : (addView id s).tabs = s.tabs := by
  unfold addView; split <;> rfl

@[simp] theorem addView_currentTab (id : String) (s : BrowserState) :
    (addView id s).currentTab = s.currentTab := by
  unfold addView; split <;> rfl

@[simp] theorem addView_lastKnownBounds (id : String) (s : BrowserState) :
    (addView id s).lastKnownBounds = s.lastKnownBounds := by
  unfold addView; split <;> rfl

@[simp] theorem addView_events (id : String) (s : BrowserState) :
    (addView id s).events = s.events := by
  unfold addView; split <;> rfl

@[simp] theorem addView_attached (id : String) (s : BrowserState) :
    (addView id s).attached =
      if id ∈ s.attached then s.attached else s.attached ++ [id] := by
  unfold addView; split <;> simp_all

@[simp] theorem removeView_tabs (id : String) (s : BrowserState) :
    (removeView id s).tabs = s.tabs := rfl

@[simp] theorem removeView_currentTab (id : String) (s : BrowserState) :
    (removeView id s).currentTab = s.currentTab := rfl

@[simp] theorem removeView_lastKnownBounds (id : String) (s : BrowserState) :
    (removeView id s).lastKnownBounds = s.lastKnownBounds := rfl

@[simp] theorem removeView_events (id : String) (s : BrowserState) :
    (removeView id s).events = s.events := rfl

@[simp] theorem removeView_attached (id : String) (s : BrowserState) :
    (removeView id s).attached = s.attached.filter (fun a => a ≠ id) := rfl

@[simp] theorem setTabBounds_attached (id : String) (b : Bounds) (s : BrowserState) :
    (setTabBounds id b s).attached = s.attached := rfl

@[simp] theorem setTabBounds_currentTab (id : String) (b : Bounds) (s : BrowserState) :
    (setTabBounds id b s).currentTab = s.currentTab := rfl

@[simp] theorem setTabBounds_lastKnownBounds (id : String) (b : Bounds) (s : BrowserState) :
    (setTabBounds id b s).lastKnownBounds = s.lastKnownBounds := rfl

@[simp] theorem setTabBounds_events (id : String) (b : Bounds) (s : BrowserState) :
    (setTabBounds id b s).events = s.events := rfl

@[simp] theorem setFrameRate_attached (id : String) (r : Nat) (s : BrowserState) :
    (setFrameRate id r s).attached = s.attached := rfl

@[simp] theorem setFrameRate_currentTab (id : String) (r : Nat) (s : BrowserState) :
    (setFrameRate id r s).currentTab = s.currentTab := rfl

@[simp] theorem setFrameRate_lastKnownBounds (id : String) (r : Nat) (s : BrowserState) :
    (setFrameRate id r s).lastKnownBounds = s.lastKnownBounds := rfl

@[simp] theorem setFrameRate_events (id : String) (r : Nat) (s : BrowserState) :
    (setFrameRate id r s).events = s.events := rfl

theorem map_id_updateFirst (p : Tab → Bool) (f : Tab → Tab) (h : ∀ t, (f t).id = t.id)
    (l : List Tab) : (updateFirst p f l).map Tab.id = l.map Tab.id := by
  induction l with
  | nil => rfl
  | cons t ts ih => unfold updateFirst; split <;> simp [h, ih]

@[simp] theorem ids_setTabBounds (id : String) (b : Bounds) (s : BrowserState) :
    ids (setTabBounds id b s) = ids s := by
  simp only [ids, setTabBounds]
  exact map_id_updateFirst (fun t => t.id == id) (fun t => { t with bounds := b })
    (fun _ => rfl) s.tabs

@[simp] theorem ids_setFrameRate (id : String) (r : Nat) (s : BrowserState) :
    ids (setFrameRate id r s) = ids s := by
  simp only [ids, setFrameRate]
  exact map_id_updateFirst (fun t => t.id == id) (fun t => { t with frameRate := some r })
    (fun _ => rfl) s.tabs

theorem resolveBoundsQuery_eq (env : Env) (s : BrowserState) :
    resolveBoundsQuery env s =
      (resolvedBounds env s.lastKnownBounds,
       { s with lastKnownBounds := cacheAfterQuery env s.lastKnownBounds }) := by
  cases s with
  | mk tabs cur cache att ev =>
    cases cache with
    | some b => rfl
    | none =>
      cases henv : env.rendererBounds with
      | some rb =>
        simp [resolveBoundsQuery, getInitialBoundsFromRenderer, setLastKnownBounds,
          resolvedBounds, cacheAfterQuery, henv]
      | none =>
        simp [resolveBoundsQuery, getInitialBoundsFromRenderer, resolvedBounds,
          cacheAfterQuery, henv]

/-! ### The single-attached-view invariant -/

theorem viewInv_initState : viewInv initState := rfl

theorem viewInv_switchTab (env : Env) (tabId : String) {s : BrowserState} (h : viewInv s) :
    viewInv (switchTab env tabId s) := by
  unfold viewInv at h ⊢
  unfold switchTab
  split
  · exact h
  · rcases hcur : s.currentTab with _ | cid
    · rw [hcur] at h
      simp only [Option.elim] at h
      simp only [hcur, resolveBoundsQuery_eq]
      simp [addView, removeView, h]
    · rw [hcur] at h
      simp only [Option.elim] at h
      by_cases hct : cid = tabId
      · subst hct
        simp only [hcur, resolveBoundsQuery_eq]
        simp [addView, removeView, h]
      · simp only [hcur, resolveBoundsQuery_eq]
        simp [addView, removeView, h, hct, Ne.symm hct]

theorem viewInv_withEvents (s : BrowserState) (e : List BEvent) :
    viewInv { s with events := e } ↔ viewInv s := Iff.rfl

theorem viewInv_createTab (env : Env) (id url : String) (activate : Bool) (ua : Option String)
    {s : BrowserState} (h : viewInv s) : viewInv (createTab env id url activate ua s) := by
  unfold createTab
  simp only [resolveBoundsQuery_eq]
  cases activate with
  | true => exact (viewInv_withEvents _ _).mpr (viewInv_switchTab env id h)
  | false => exact (viewInv_withEvents _ _).mpr h

theorem viewInv_closeTab (env : Env) (tabId : String) {s : BrowserState} (h : viewInv s) :
    viewInv (closeTab env tabId s) := by
  unfold viewInv at h ⊢
  unfold closeTab
  split
  · rcases hcur : s.currentTab with _ | cid
    · rw [hcur] at h
      simp only [Option.elim] at h
      simp [hcur, removeView, h]
    · rw [hcur] at h
      simp only [Option.elim] at h
      by_cases hct : cid = tabId
      · subst hct
        rcases hrem : eraseFirst (fun t => t.id == cid) s.tabs with _ | ⟨t0, rest⟩ <;>
          rcases hlb : s.lastKnownBounds with _ | b <;>
            simp [hcur, hrem, hlb, removeView, addView, h]
      · simp [hcur, removeView, h, hct]
  · exact h

theorem viewInv_reachable {s : BrowserState} (h : Reachable s) : viewInv s := by
  induction h with
  | init => exact viewInv_initState
  | create env id url activate ua _ ih => exact viewInv_createTab env id url activate ua ih
  | switch env tabId _ ih => exact viewInv_switchTab env tabId ih
  | close env tabId _ ih => exact viewInv_closeTab env tabId ih

/-- C1: for every sequence of `createTab`, `switchTab` and `closeTab`
operations starting from the empty tab-manager state, every reachable state
has at most one surface attached to the host window (in fact exactly the
current tab's surface, or none): `switchTab`, as embedded, removes the
previous view before adding the new one, and the invariant holds at every
observable point between operations. -/
theorem at_most_one_attached_of_reachable {s : BrowserState} (h : Reachable s) :
    s.attached.length ≤ 1 := by
  have hv := viewInv_reachable h
  unfold viewInv at hv
  rw [hv]
  cases s.currentTab <;> simp

theorem at_most_one_attached_witness :
    (switchTab ⟨none, ⟨0, 0, 800, 600⟩⟩ "a"
      (createTab ⟨none, ⟨0, 0, 800, 600⟩⟩ "a" "u" true none initState)).attached.length ≤ 1 :=
  at_most_one_attached_of_reachable
    (Reachable.switch _ _ (Reachable.create _ "a" "u" true none Reachable.init))

/-- C3: `switchTab` with an id that matches no tab in the collection returns
the state unchanged in every component (tabs, current tab, cached bounds,
attached surfaces) and emits no event. -/
theorem switchTab_unknown_noop (env : Env) (tabId : String) (s : BrowserState)
    (h : ∀ t ∈ s.tabs, t.id ≠ tabId) : switchTab env tabId s = s := by
  have hfind : s.tabs.find? (fun t => t.id == tabId) = none := by
    apply List.find?_eq_none.mpr
    intro t ht
    simp [h t ht]
  unfold switchTab
  rw [hfind]

theorem switchTab_unknown_noop_witness :
    switchTab ⟨none, ⟨0, 0, 1, 1⟩⟩ "zzz"
        (createTab ⟨none, ⟨0, 0, 1, 1⟩⟩ "a" "u" true none initState) =
      createTab ⟨none, ⟨0, 0, 1, 1⟩⟩ "a" "u" true none initState :=
  switchTab_unknown_noop _ _ _ (by decide)

/-- The complete effect of `createTab` with `activate = false`. -/
theorem createTab_false_spec (env : Env) (id url : String) (ua : Option String)
    (s : BrowserState) :
    (createTab env id url false ua s).currentTab = s.currentTab ∧
    (createTab env id url false ua s).attached = s.attached ∧
    (createTab env id url false ua s).tabs =
      s.tabs ++ [mkTab id url ua (resolvedBounds env s.lastKnownBounds)] ∧
    (createTab env id url false ua s).events = s.events ++ [BEvent.tabsUpdated] ∧
    (createTab env id url false ua s).lastKnownBounds = cacheAfterQuery env s.lastKnownBounds := by
  unfold createTab
  simp only [resolveBoundsQuery_eq]
  simp

/-- C8: `createTab(url, activate = false, userAgent)` leaves the active tab
unchanged, attaches nothing, appends the new tab at the end of the ordered
collection, and still emits `tabs-updated`. -/
theorem createTab_no_activate (env : Env) (id url : String) (ua : Option String)
    (s : BrowserState) :
    (createTab env id url false ua s).currentTab = s.currentTab ∧
    (createTab env id url false ua s).attached = s.attached ∧
    (createTab env id url false ua s).tabs =
      s.tabs ++ [mkTab id url ua (resolvedBounds env s.lastKnownBounds)] ∧
    (createTab env id url false ua s).events = s.events ++ [BEvent.tabsUpdated] :=
  ⟨(createTab_false_spec env id url ua s).1, (createTab_false_spec env id url ua s).2.1,
   (createTab_false_spec env id url ua s).2.2.1, (createTab_false_spec env id url ua s).2.2.2.1⟩

theorem switchTab_not_found_eq (env : Env) (tid : String) (s : BrowserState)
    (hfind : s.tabs.find? (fun t => t.id == tid) = none) :
    switchTab env tid s = s := by
  unfold switchTab
  rw [hfind]

/-- `switchTab` in the found case, as one explicit record. -/
theorem switchTab_found_eq (env : Env) (tid : String) (s : BrowserState)
    (hfind : (s.tabs.find? (fun t => t.id == tid)).isSome) :
    switchTab env tid s =
      { tabs := updateFirst (fun x => x.id == tid) (fun x => { x with frameRate := some 60 })
          (updateFirst (fun x => x.id == tid)
            (fun x => { x with bounds := resolvedBounds env s.lastKnownBounds }) s.tabs),
        currentTab := some tid,
        lastKnownBounds := cacheAfterQuery env s.lastKnownBounds,
        attached := switchAttached tid s.currentTab s.attached,
        events := s.events ++ [BEvent.activeTabChanged (some tid)] } := by
  obtain ⟨t, ht⟩ := Option.isSome_iff_exists.mp hfind
  unfold switchTab
  rw [ht]
  simp only [resolveBoundsQuery_eq]
  rcases hcur : s.currentTab with _ | cid
  · simp [switchAttached, hcur, setTabBounds, setFrameRate, addView, removeView] <;>
      split <;> simp_all
  · by_cases hct : cid = tid
    · subst hct
      simp [switchAttached, hcur, setTabBounds, setFrameRate, addView, removeView] <;>
        split <;> simp_all
    · simp [switchAttached, hcur, hct, setTabBounds, setFrameRate, addView, removeView] <;>
        split <;> simp_all

theorem switchTab_lastKnownBounds_some (env : Env) (tid : String) (s : BrowserState)
    (b : Bounds) (h : s.lastKnownBounds = some b) :
    (switchTab env tid s).lastKnownBounds = some b := by
  cases hf : s.tabs.find? (fun t => t.id == tid) with
  | none => rw [switchTab_not_found_eq env tid s hf]; exact h
  | some t =>
    rw [switchTab_found_eq env tid s (by simp [hf])]
    simp [h, cacheAfterQuery]

theorem createTab_caches_renderer_reply (env : Env) (id url : String) (activate : Bool)
    (ua : Option String) (s : BrowserState) (b : Bounds)
    (hc : s.lastKnownBounds = none) (hr : env.rendererBounds = some b) :
    (createTab env id url activate ua s).lastKnownBounds = some b := by
  unfold createTab
  simp only [resolveBoundsQuery_eq]
  cases activate with
  | false => simp [hc, cacheAfterQuery, hr]
  | true =>
    simp only []
    have := switchTab_lastKnownBounds_some env id
      { s with
        lastKnownBounds := cacheAfterQuery env s.lastKnownBounds,
        tabs := s.tabs ++ [mkTab id url ua (resolvedBounds env s.lastKnownBounds)] } b
      (by simp [hc, cacheAfterQuery, hr])
    simpa using this

/-- C4: `createTab` resolves the new surface's geometry through the
three-tier fallback - cached `lastKnownBounds` first, else the renderer's
(Geometry Provider's) freshly queried bounds, else the host window's content
rectangle - a successful query updates the cache, and a later
`createTab(activate = false)` therefore positions its surface at the cached
rectangle regardless of its own environment. -/
theorem createTab_three_tier_fallback (env env2 : Env) (s : BrowserState) :
    (∀ b id url ua, s.lastKnownBounds = some b →
      (createTab env id url false ua s).tabs = s.tabs ++ [mkTab id url ua b]) ∧
    (∀ b id url ua, s.lastKnownBounds = none → env.rendererBounds = some b →
      (createTab env id url false ua s).tabs = s.tabs ++ [mkTab id url ua b] ∧
      (∀ activate, (createTab env id url activate ua s).lastKnownBounds = some b)) ∧
    (∀ id url ua, s.lastKnownBounds = none → env.rendererBounds = none →
      (createTab env id url false ua s).tabs =
        s.tabs ++ [mkTab id url ua ⟨0, 0, env.contentBounds.width, env.contentBounds.height⟩]) ∧
    (∀ b id url activate ua id2 url2 ua2,
      s.lastKnownBounds = none → env.rendererBounds = some b →
      (createTab env2 id2 url2 false ua2 (createTab env id url activate ua s)).tabs =
        (createTab env id url activate ua s).tabs ++ [mkTab id2 url2 ua2 b]) := by
  refine ⟨?_, ?_, ?_, ?_⟩
  · intro b id url ua hc
    rw [(createTab_false_spec env id url ua s).2.2.1, hc]
    simp [resolvedBounds]
  · intro b id url ua hc hr
    refine ⟨?_, ?_⟩
    · rw [(createTab_false_spec env id url ua s).2.2.1, hc]
      simp [resolvedBounds, hr]
    · intro activate
      exact createTab_caches_renderer_reply env id url activate ua s b hc hr
  · intro id url ua hc hr
    rw [(createTab_false_spec env id url ua s).2.2.1, hc]
    simp [resolvedBounds, hr]
  · intro b id url activate ua id2 url2 ua2 hc hr
    have hcache := createTab_caches_renderer_reply env id url activate ua s b hc hr
    rw [(createTab_false_spec env2 id2 url2 ua2 _).2.2.1, hcache]
    simp [resolvedBounds]

theorem createTab_three_tier_fallback_witness :
    (createTab ⟨some ⟨7, 8, 9, 10⟩, ⟨0, 0, 800, 600⟩⟩ "b" "u2" false none
        (createTab ⟨some ⟨1, 2, 3, 4⟩, ⟨0, 0, 800, 600⟩⟩ "a" "u1" true none initState)).tabs =
      (createTab ⟨some ⟨1, 2, 3, 4⟩, ⟨0, 0, 800, 600⟩⟩ "a" "u1" true none initState).tabs ++
        [mkTab "b" "u2" none ⟨1, 2, 3, 4⟩] :=
  (createTab_three_tier_fallback ⟨some ⟨1, 2, 3, 4⟩, ⟨0, 0, 800, 600⟩⟩
    ⟨some ⟨7, 8, 9, 10⟩, ⟨0, 0, 800, 600⟩⟩ initState).2.2.2 ⟨1, 2, 3, 4⟩ "a" "u1" true none
    "b" "u2" none rfl rfl

theorem closeTab_not_found_eq (env : Env) (tid : String) (s : BrowserState)
    (hfind : s.tabs.find? (fun t => t.id == tid) = none) :
    closeTab env tid s = s := by
  unfold closeTab
  simp [hfind]

/-- `closeTab` when the closed tab exists but is not the current one. -/
theorem closeTab_found_not_current (env : Env) (tid : String) (s : BrowserState)
    (hfind : (s.tabs.find? (fun t => t.id == tid)).isSome)
    (hcur : ¬s.currentTab = some tid) :
    closeTab env tid s =
      { s with
        tabs := eraseFirst (fun t => t.id == tid) s.tabs,
        attached := s.attached.filter (fun a => a ≠ tid),
        events := s.events ++
          [BEvent.tabsUpdated, BEvent.activeTabChanged (jsIdOrNull s.currentTab)] } := by
  unfold closeTab
  simp only [hfind, if_true, removeView]
  rw [if_neg hcur]

/-- `closeTab` when the closed tab was current and no tab remains. -/
theorem closeTab_found_current_empty (env : Env) (tid : String) (s : BrowserState)
    (hfind : (s.tabs.find? (fun t => t.id == tid)).isSome)
    (hcur : s.currentTab = some tid)
    (hrem : eraseFirst (fun t => t.id == tid) s.tabs = []) :
    closeTab env tid s =
      { s with
        tabs := [],
        currentTab := none,
        attached := s.attached.filter (fun a => a ≠ tid),
        events := s.events ++ [BEvent.tabsUpdated, BEvent.activeTabChanged none] } := by
  unfold closeTab
  simp only [hfind, if_true, removeView]
  rw [if_pos hcur]
  simp only [hrem]
  simp [jsIdOrNull]

/-- `closeTab` when the closed tab was current and a replacement exists:
promote the first remaining tab, attach it, apply the two-tier bounds and the
frame-rate hint. -/
theorem closeTab_found_current_promote (env : Env) (tid : String) (s : BrowserState)
    (t0 : Tab) (rest : List Tab)
    (hfind : (s.tabs.find? (fun t => t.id == tid)).isSome)
    (hcur : s.currentTab = some tid)
    (hrem : eraseFirst (fun t => t.id == tid) s.tabs = t0 :: rest) :
    closeTab env tid s =
      { tabs := updateFirst (fun x => x.id == t0.id) (fun x => { x with frameRate := some 60 })
          (updateFirst (fun x => x.id == t0.id)
            (fun x => { x with bounds := resolvedBoundsNoQuery env s.lastKnownBounds })
            (t0 :: rest)),
        currentTab := some t0.id,
        lastKnownBounds := s.lastKnownBounds,
        attached :=
          (if t0.id ∈ s.attached.filter (fun a => a ≠ tid) then
            s.attached.filter (fun a => a ≠ tid)
          else s.attached.filter (fun a => a ≠ tid) ++ [t0.id]),
        events := s.events ++
          [BEvent.tabsUpdated, BEvent.activeTabChanged (jsIdOrNull (some t0.id))] } := by
  unfold closeTab
  simp only [hfind, if_true, removeView]
  rw [if_pos hcur]
  simp only [hrem]
  rcases hlb : s.lastKnownBounds with _ | b <;>
    simp [setTabBounds, setFrameRate, resolvedBoundsNoQuery, hlb]

theorem find?_isSome_of_mem {l : List Tab} {tabId : String}
    (h : ∃ t ∈ l, t.id = tabId) : (l.find? (fun t => t.id == tabId)).isSome := by
  simpa using h

theorem mem_of_mem_eraseFirst {p : Tab → Bool} {l : List Tab} {t : Tab}
    (h : t ∈ eraseFirst p l) : t ∈ l := by
  induction l with
  | nil => simpa [eraseFirst] using h
  | cons a as ih =>
    unfold eraseFirst at h
    by_cases hp : p a = true
    · rw [if_pos hp] at h
      exact List.mem_cons_of_mem _ h
    · rw [if_neg hp] at h
      rcases List.mem_cons.mp h with rfl | hm
      · exact List.mem_cons_self _ _
      · exact List.mem_cons_of_mem _ (ih hm)

theorem not_mem_map_id_eraseFirst {tabId : String} {l : List Tab}
    (hnd : (l.map Tab.id).Nodup) :
    tabId ∉ (eraseFirst (fun t => t.id == tabId) l).map Tab.id := by
  induction l with
  | nil => simp [eraseFirst]
  | cons a as ih =>
    simp only [List.map_cons, List.nodup_cons] at hnd
    obtain ⟨hna, hnds⟩ := hnd
    unfold eraseFirst
    by_cases hp : (a.id == tabId) = true
    · rw [if_pos hp]
      have hEq : a.id = tabId := by simpa using hp
      rw [← hEq]
      exact hna
    · rw [if_neg hp]
      simp only [List.map_cons, List.mem_cons]
      push_neg
      refine ⟨?_, ih hnds⟩
      intro hEq
      exact hp (by simp [hEq])

/-- C5: when `closeTab(id)` finds its tab, the closed tab's surface is
detached from the host window and the tab is removed from the collection: in
the resulting state the closed id appears neither among the live tabs, nor
among the attached views, nor as the current tab - the surface does not
outlive the tab's removal. -/
theorem closeTab_destroys (env : Env) (tabId : String) (s : BrowserState)
    (hpres : ∃ t ∈ s.tabs, t.id = tabId) (hnd : (ids s).Nodup) :
    tabId ∉ ids (closeTab env tabId s) ∧
    tabId ∉ (closeTab env tabId s).attached ∧
    ¬(closeTab env tabId s).currentTab = some tabId := by
  have hfind : (s.tabs.find? (fun t => t.id == tabId)).isSome := find?_isSome_of_mem hpres
  have hrem : tabId ∉ (eraseFirst (fun t => t.id == tabId) s.tabs).map Tab.id :=
    not_mem_map_id_eraseFirst (by simpa [ids] using hnd)
  by_cases hc : s.currentTab = some tabId
  · rcases hE : eraseFirst (fun t => t.id == tabId) s.tabs with _ | ⟨t0, rest⟩
    · rw [closeTab_found_current_empty env tabId s hfind hc hE]
      refine ⟨by simp [ids], by simp [List.mem_filter], by simp⟩
    · rw [closeTab_found_current_promote env tabId s t0 rest hfind hc hE]
      have ht0 : t0.id ≠ tabId := by
        intro hEq
        apply hrem
        rw [hE]
        simp [hEq]
      refine ⟨?_, ?_, ?_⟩
      · show tabId ∉ (updateFirst _ _ (updateFirst _ _ (t0 :: rest))).map Tab.id
        rw [map_id_updateFirst (fun x => x.id == t0.id) (fun x => { x with frameRate := some 60 })
            (fun _ => rfl),
          map_id_updateFirst (fun x => x.id == t0.id)
            (fun x => { x with bounds := resolvedBoundsNoQuery env s.lastKnownBounds })
            (fun _ => rfl),
          ← hE]
        exact hrem
      · show tabId ∉ _
        split <;> simp [List.mem_filter, Ne.symm ht0]
      · simp [ht0]
  · rw [closeTab_found_not_current env tabId s hfind hc]
    refine ⟨hrem, by simp [List.mem_filter], hc⟩

theorem closeTab_destroys_witness :
    "a" ∉ ids (closeTab ⟨none, ⟨0, 0, 1, 1⟩⟩ "a"
        (createTab ⟨none, ⟨0, 0, 1, 1⟩⟩ "a" "u" true none initState)) ∧
    "a" ∉ (closeTab ⟨none, ⟨0, 0, 1, 1⟩⟩ "a"
        (createTab ⟨none, ⟨0, 0, 1, 1⟩⟩ "a" "u" true none initState)).attached ∧
    ¬(closeTab ⟨none, ⟨0, 0, 1, 1⟩⟩ "a"
        (createTab ⟨none, ⟨0, 0, 1, 1⟩⟩ "a" "u" true none initState)).currentTab = some "a" :=
  closeTab_destroys ⟨none, ⟨0, 0, 1, 1⟩⟩ "a" _ (by decide) (by decide)

/-- C2: `closeTab(id)` with the id present removes that tab from the ordered
collection; when the closed tab was the visible one the new active tab is the
first remaining tab in collection order (null when none remains, in which case
`getTabs` returns the empty sequence); and it always emits `tabs-updated`
and `active-tab-changed` carrying the new active id (or null), also when the
closed tab was not the visible one.  Ids are assumed nonempty strings (the
source's `currentTab?.id || null` would coerce an empty id to null). -/
theorem closeTab_removes_and_notifies (env : Env) (tabId : String) (s : BrowserState)
    (hpres : ∃ t ∈ s.tabs, t.id = tabId)
    (hids : ∀ t ∈ s.tabs, t.id ≠ "")
    (hcur0 : ¬s.currentTab = some "") :
    ids (closeTab env tabId s) = (eraseFirst (fun t => t.id == tabId) s.tabs).map Tab.id ∧
    (s.currentTab = some tabId →
      (closeTab env tabId s).currentTab =
        ((eraseFirst (fun t => t.id == tabId) s.tabs).head?).map Tab.id) ∧
    (¬s.currentTab = some tabId → (closeTab env tabId s).currentTab = s.currentTab) ∧
    (eraseFirst (fun t => t.id == tabId) s.tabs = [] →
      (closeTab env tabId s).tabs = [] ∧
      ∀ titleOf urlOf, getTabs titleOf urlOf (closeTab env tabId s) = []) ∧
    (closeTab env tabId s).events = s.events ++
      [BEvent.tabsUpdated, BEvent.activeTabChanged (closeTab env tabId s).currentTab] := by
  have hfind := find?_isSome_of_mem hpres
  by_cases hc : s.currentTab = some tabId
  · rcases hE : eraseFirst (fun t => t.id == tabId) s.tabs with _ | ⟨t0, rest⟩
    · rw [closeTab_found_current_empty env tabId s hfind hc hE]
      refine ⟨by simp [ids, hE], ?_, ?_, ?_, by simp⟩
      · intro _
        simp [hE]
      · intro hne
        exact absurd hc hne
      · intro _
        exact ⟨rfl, fun titleOf urlOf => by simp [getTabs]⟩
    · rw [closeTab_found_current_promote env tabId s t0 rest hfind hc hE]
      have ht0mem : t0 ∈ s.tabs := mem_of_mem_eraseFirst (hE ▸ List.mem_cons_self t0 rest)
      have ht00 : t0.id ≠ "" := hids t0 ht0mem
      refine ⟨?_, ?_, ?_, ?_, ?_⟩
      · show (updateFirst _ _ (updateFirst _ _ (t0 :: rest))).map Tab.id = _
        rw [map_id_updateFirst (fun x => x.id == t0.id) (fun x => { x with frameRate := some 60 })
            (fun _ => rfl),
          map_id_updateFirst (fun x => x.id == t0.id)
            (fun x => { x with bounds := resolvedBoundsNoQuery env s.lastKnownBounds })
            (fun _ => rfl)]
      · intro _
        simp [hE]
      · intro hne
        exact absurd hc hne
      · intro hcontra
        simp at hcontra
      · simp [jsIdOrNull, ht00]
  · rw [closeTab_found_not_current env tabId s hfind hc]
    refine ⟨rfl, ?_, fun _ => rfl, ?_, ?_⟩
    · intro hcc
      exact absurd hcc hc
    · intro hEe
      exact ⟨hEe, fun titleOf urlOf => by simp [getTabs, hEe]⟩
    · rcases hcc : s.currentTab with _ | cid
      · simp [jsIdOrNull]
      · have hcne : cid ≠ "" := by
          rintro rfl
          exact hcur0 hcc
        simp [jsIdOrNull, hcne]

theorem closeTab_removes_and_notifies_witness :
    ids (closeTab sampleEnv "b" sampleTwoTabs) =
      (eraseFirst (fun t => t.id == "b") sampleTwoTabs.tabs).map Tab.id ∧
    (sampleTwoTabs.currentTab = some "b" →
      (closeTab sampleEnv "b" sampleTwoTabs).currentTab =
        ((eraseFirst (fun t => t.id == "b") sampleTwoTabs.tabs).head?).map Tab.id) ∧
    (¬sampleTwoTabs.currentTab = some "b" →
      (closeTab sampleEnv "b" sampleTwoTabs).currentTab = sampleTwoTabs.currentTab) ∧
    (eraseFirst (fun t => t.id == "b") sampleTwoTabs.tabs = [] →
      (closeTab sampleEnv "b" sampleTwoTabs).tabs = [] ∧
      ∀ titleOf urlOf, getTabs titleOf urlOf (closeTab sampleEnv "b" sampleTwoTabs) = []) ∧
    (closeTab sampleEnv "b" sampleTwoTabs).events = sampleTwoTabs.events ++
      [BEvent.tabsUpdated,
       BEvent.activeTabChanged (closeTab sampleEnv "b" sampleTwoTabs).currentTab] :=
  closeTab_removes_and_notifies sampleEnv "b" sampleTwoTabs (by decide) (by decide) (by decide)

theorem closeTabViaSwitchPath_not_found_eq (env : Env) (tid : String) (s : BrowserState)
    (hfind : s.tabs.find? (fun t => t.id == tid) = none) :
    closeTabViaSwitchPath env tid s = s := by
  unfold closeTabViaSwitchPath
  simp [hfind]

theorem closeTabViaSwitchPath_found_not_current (env : Env) (tid : String) (s : BrowserState)
    (hfind : (s.tabs.find? (fun t => t.id == tid)).isSome)
    (hcur : ¬s.currentTab = some tid) :
    closeTabViaSwitchPath env tid s =
      { s with
        tabs := eraseFirst (fun t => t.id == tid) s.tabs,
        attached := s.attached.filter (fun a => a ≠ tid),
        events := s.events ++
          [BEvent.tabsUpdated, BEvent.activeTabChanged (jsIdOrNull s.currentTab)] } := by
  unfold closeTabViaSwitchPath
  simp only [hfind, if_true, removeView]
  rw [if_neg hcur]

theorem closeTabViaSwitchPath_found_current_empty (env : Env) (tid : String) (s : BrowserState)
    (hfind : (s.tabs.find? (fun t => t.id == tid)).isSome)
    (hcur : s.currentTab = some tid)
    (hrem : eraseFirst (fun t => t.id == tid) s.tabs = []) :
    closeTabViaSwitchPath env tid s =
      { s with
        tabs := [],
        currentTab := none,
        attached := s.attached.filter (fun a => a ≠ tid),
        events := s.events ++ [BEvent.tabsUpdated, BEvent.activeTabChanged none] } := by
  unfold closeTabViaSwitchPath
  simp only [hfind, if_true, removeView]
  rw [if_pos hcur]
  simp only [hrem]
  simp [jsIdOrNull]

theorem closeTabViaSwitchPath_found_current_promote (env : Env) (tid : String)
    (s : BrowserState) (t0 : Tab) (rest : List Tab)
    (hfind : (s.tabs.find? (fun t => t.id == tid)).isSome)
    (hcur : s.currentTab = some tid)
    (hrem : eraseFirst (fun t => t.id == tid) s.tabs = t0 :: rest) :
    closeTabViaSwitchPath env tid s =
      { tabs := updateFirst (fun x => x.id == t0.id) (fun x => { x with frameRate := some 60 })
          (updateFirst (fun x => x.id == t0.id)
            (fun x => { x with bounds := resolvedBounds env s.lastKnownBounds })
            (t0 :: rest)),
        currentTab := some t0.id,
        lastKnownBounds := cacheAfterQuery env s.lastKnownBounds,
        attached :=
          (if t0.id ∈ s.attached.filter (fun a => a ≠ tid) then
            s.attached.filter (fun a => a ≠ tid)
          else s.attached.filter (fun a => a ≠ tid) ++ [t0.id]),
        events := s.events ++
          [BEvent.tabsUpdated, BEvent.activeTabChanged (jsIdOrNull (some t0.id))] } := by
  unfold closeTabViaSwitchPath
  simp only [hfind, if_true, removeView]
  rw [if_pos hcur]
  simp only [hrem]
  simp only [resolveBoundsQuery_eq]
  simp [setTabBounds, setFrameRate]

/-- C6 counterexample: with no cached bounds and a renderer that would reply
`{1, 2, 3, 4}`, closing the current tab positions the replacement at the host
window's content rectangle without querying the renderer, whereas the
spec-described "same sequence as `switchTab`'s activation path" would query
the renderer, use `{1, 2, 3, 4}` and cache it - the two resulting states
differ. -/
theorem closeTab_not_switch_path_counterexample :
    closeTab sampleEnvR "a"
        { tabs := [mkTab "a" "u" none ⟨9, 9, 9, 9⟩, mkTab "b" "u" none ⟨9, 9, 9, 9⟩],
          currentTab := some "a", lastKnownBounds := none, attached := ["a"], events := [] } ≠
      closeTabViaSwitchPath sampleEnvR "a"
        { tabs := [mkTab "a" "u" none ⟨9, 9, 9, 9⟩, mkTab "b" "u" none ⟨9, 9, 9, 9⟩],
          currentTab := some "a", lastKnownBounds := none, attached := ["a"], events := [] } := by
  decide

/-- C6 (amended): `closeTab`'s replacement path resolves bounds through a
two-tier fallback (cached `lastKnownBounds`, else the host window's content
rectangle), skipping `switchTab`'s renderer query and its cache update; it
therefore coincides with the switchTab-style activation path exactly when
bounds are cached or the renderer has no valid reply. -/
theorem closeTab_promote_matches_switch_path (env : Env) (tabId : String) (s : BrowserState)
    (h : s.lastKnownBounds ≠ none ∨ env.rendererBounds = none) :
    closeTab env tabId s = closeTabViaSwitchPath env tabId s := by
  have hrb : resolvedBoundsNoQuery env s.lastKnownBounds =
      resolvedBounds env s.lastKnownBounds := by
    rcases hlb : s.lastKnownBounds with _ | b
    · rcases h with h | h
      · exact absurd hlb h
      · simp [resolvedBoundsNoQuery, resolvedBounds, h]
    · rfl
  have hcq : cacheAfterQuery env s.lastKnownBounds = s.lastKnownBounds := by
    rcases hlb : s.lastKnownBounds with _ | b
    · rcases h with h | h
      · exact absurd hlb h
      · simp [cacheAfterQuery, h]
    · rfl
  by_cases hf0 : (s.tabs.find? (fun t => t.id == tabId)).isSome
  · by_cases hc : s.currentTab = some tabId
    · rcases hE : eraseFirst (fun t => t.id == tabId) s.tabs with _ | ⟨t0, rest⟩
      · rw [closeTab_found_current_empty env tabId s hf0 hc hE,
          closeTabViaSwitchPath_found_current_empty env tabId s hf0 hc hE]
      · rw [closeTab_found_current_promote env tabId s t0 rest hf0 hc hE,
          closeTabViaSwitchPath_found_current_promote env tabId s t0 rest hf0 hc hE,
          hrb, hcq]
    · rw [closeTab_found_not_current env tabId s hf0 hc,
        closeTabViaSwitchPath_found_not_current env tabId s hf0 hc]
  · have hfn : s.tabs.find? (fun t => t.id == tabId) = none := by
      rcases hx : s.tabs.find? (fun t => t.id == tabId) with _ | t
      · exact hx
      · rw [hx] at hf0
        simp at hf0
    rw [closeTab_not_found_eq env tabId s hfn, closeTabViaSwitchPath_not_found_eq env tabId s hfn]

theorem closeTab_promote_matches_switch_path_witness :
    closeTab sampleEnvR "a"
        { tabs := [mkTab "a" "u" none ⟨9, 9, 9, 9⟩, mkTab "b" "u" none ⟨9, 9, 9, 9⟩],
          currentTab := some "a", lastKnownBounds := some ⟨5, 6, 7, 8⟩, attached := ["a"],
          events := [] } =
      closeTabViaSwitchPath sampleEnvR "a"
        { tabs := [mkTab "a" "u" none ⟨9, 9, 9, 9⟩, mkTab "b" "u" none ⟨9, 9, 9, 9⟩],
          currentTab := some "a", lastKnownBounds := some ⟨5, 6, 7, 8⟩, attached := ["a"],
          events := [] } :=
  closeTab_promote_matches_switch_path sampleEnvR "a" _ (Or.inl (by decide))

theorem find?_updateFirst_bounds {l : List Tab} {cid : String} {b : Bounds} {t : Tab}
    (h : l.find? (fun x => x.id == cid) = some t) :
    (updateFirst (fun x => x.id == cid) (fun x => { x with bounds := b }) l).find?
      (fun x => x.id == cid) = some { t with bounds := b } := by
  induction l with
  | nil => simp [List.find?] at h
  | cons a as ih =>
    unfold updateFirst
    by_cases hp : (a.id == cid) = true
    · rw [if_pos hp]
      rw [List.find?_cons_of_pos (p := fun x => x.id == cid) as hp] at h
      have hp2 : ((({ a with bounds := b } : Tab)).id == cid) = true := hp
      rw [List.find?_cons_of_pos (p := fun x => x.id == cid)
        (a := { a with bounds := b }) as hp2]
      cases h
      rfl
    · rw [if_neg hp]
      rw [List.find?_cons_of_neg (p := fun x => x.id == cid) as (by simpa using hp)] at h
      rw [List.find?_cons_of_neg (p := fun x => x.id == cid) (a := a) _ (by simpa using hp)]
      exact ih h

/-- C7 counterexample: an `update-webview-bounds` report arriving while no
tab is active does not update `lastKnownBounds` - the claim's "lastKnownBounds
is updated whenever the UI reports bounds" fails on the fresh state. -/
theorem updateWebviewBounds_drops_report_counterexample :
    (updateWebviewBounds ⟨1, 2, 3, 4⟩ initState).lastKnownBounds ≠ some ⟨1, 2, 3, 4⟩ := by
  decide

/-- C7 (amended): the `update-webview-bounds` handler runs only when an
active tab exists; in that case it sets the active tab's surface bounds to
the reported rectangle and caches it in `lastKnownBounds`; with no active tab
the report is dropped entirely and no state changes. -/
theorem updateWebviewBounds_with_active (b : Bounds) (s : BrowserState) :
    (∀ cid t, s.currentTab = some cid →
      s.tabs.find? (fun x => x.id == cid) = some t →
      (updateWebviewBounds b s).lastKnownBounds = some b ∧
      (updateWebviewBounds b s).tabs.find? (fun x => x.id == cid) =
        some { t with bounds := b } ∧
      (updateWebviewBounds b s).currentTab = s.currentTab ∧
      (updateWebviewBounds b s).events = s.events ∧
      (updateWebviewBounds b s).attached = s.attached) ∧
    (s.currentTab = none → updateWebviewBounds b s = s) := by
  constructor
  · intro cid t hcur hfind
    unfold updateWebviewBounds
    rw [hcur]
    refine ⟨rfl, ?_, hcur, rfl, rfl⟩
    exact find?_updateFirst_bounds hfind
  · intro hcur
    unfold updateWebviewBounds
    rw [hcur]

theorem updateWebviewBounds_with_active_witness :
    (updateWebviewBounds ⟨1, 2, 3, 4⟩ sampleTwoTabs).lastKnownBounds = some ⟨1, 2, 3, 4⟩ ∧
    (updateWebviewBounds ⟨1, 2, 3, 4⟩ sampleTwoTabs).tabs.find? (fun x => x.id == "b") =
      some { id := "b", url := "u2", userAgent := none, favicon := none,
             bounds := ⟨1, 2, 3, 4⟩, frameRate := some 60 } ∧
    (updateWebviewBounds ⟨1, 2, 3, 4⟩ sampleTwoTabs).currentTab = sampleTwoTabs.currentTab ∧
    (updateWebviewBounds ⟨1, 2, 3, 4⟩ sampleTwoTabs).events = sampleTwoTabs.events ∧
    (updateWebviewBounds ⟨1, 2, 3, 4⟩ sampleTwoTabs).attached = sampleTwoTabs.attached :=
  (updateWebviewBounds_with_active ⟨1, 2, 3, 4⟩ sampleTwoTabs).1 "b"
    { id := "b", url := "u2", userAgent := none, favicon := none,
      bounds := ⟨0, 0, 800, 600⟩, frameRate := some 60 } (by decide) (by decide)

theorem map_updateFirst {β : Type} (g : Tab → β) (p : Tab → Bool) (f : Tab → Tab)
    (h : ∀ t, g (f t) = g t) (l : List Tab) : (updateFirst p f l).map g = l.map g := by
  induction l with
  | nil => rfl
  | cons t ts ih => unfold updateFirst; split <;> simp [h, ih]

theorem ids_switchTab (env : Env) (tid : String) (s : BrowserState) :
    ids (switchTab env tid s) = ids s := by
  cases hf : s.tabs.find? (fun t => t.id == tid) with
  | none => rw [switchTab_not_found_eq env tid s hf]
  | some t =>
    rw [switchTab_found_eq env tid s (by simp [hf])]
    show (updateFirst _ _ (updateFirst _ _ s.tabs)).map Tab.id = _
    rw [map_updateFirst Tab.id (fun x => x.id == tid) (fun x => { x with frameRate := some 60 }) (fun _ => rfl),
      map_updateFirst Tab.id (fun x => x.id == tid) (fun x => { x with bounds := resolvedBounds env s.lastKnownBounds }) (fun _ => rfl)]
    rfl

theorem tabKeys_switchTab (env : Env) (tid : String) (s : BrowserState) :
    tabKeys (switchTab env tid s) = tabKeys s := by
  cases hf : s.tabs.find? (fun t => t.id == tid) with
  | none => rw [switchTab_not_found_eq env tid s hf]
  | some t =>
    rw [switchTab_found_eq env tid s (by simp [hf])]
    show (updateFirst _ _ (updateFirst _ _ s.tabs)).map _ = _
    rw [map_updateFirst (fun t => (t.id, t.url, t.userAgent)) (fun x => x.id == tid)
        (fun x => { x with frameRate := some 60 }) (fun _ => rfl),
      map_updateFirst (fun t => (t.id, t.url, t.userAgent)) (fun x => x.id == tid)
        (fun x => { x with bounds := resolvedBounds env s.lastKnownBounds }) (fun _ => rfl)]
    rfl

theorem ids_createTab (env : Env) (id url : String) (activate : Bool) (ua : Option String)
    (s : BrowserState) : ids (createTab env id url activate ua s) = ids s ++ [id] := by
  unfold createTab
  simp only [resolveBoundsQuery_eq]
  cases activate with
  | false => simp [ids, mkTab]
  | true =>
    show ids (switchTab env id _) = _
    rw [ids_switchTab]
    simp [ids, mkTab]

theorem tabKeys_createTab (env : Env) (id url : String) (activate : Bool) (ua : Option String)
    (s : BrowserState) :
    tabKeys (createTab env id url activate ua s) = tabKeys s ++ [(id, url, ua)] := by
  unfold createTab
  simp only [resolveBoundsQuery_eq]
  cases activate with
  | false => simp [tabKeys, mkTab]
  | true =>
    show tabKeys (switchTab env id _) = _
    rw [tabKeys_switchTab]
    simp [tabKeys, mkTab]

theorem eraseFirst_sublist (p : Tab → Bool) (l : List Tab) : (eraseFirst p l).Sublist l := by
  induction l with
  | nil => simp [eraseFirst]
  | cons a as ih =>
    unfold eraseFirst
    by_cases hp : p a = true
    · rw [if_pos hp]
      exact (List.sublist_cons_self a as)
    · rw [if_neg hp]
      exact ih.cons₂ a

theorem ids_closeTab_sublist (env : Env) (tid : String) (s : BrowserState) :
    (ids (closeTab env tid s)).Sublist (ids s) := by
  by_cases hf : (s.tabs.find? (fun t => t.id == tid)).isSome
  · by_cases hc : s.currentTab = some tid
    · rcases hE : eraseFirst (fun t => t.id == tid) s.tabs with _ | ⟨t0, rest⟩
      · rw [closeTab_found_current_empty env tid s hf hc hE]
        simp [ids]
      · rw [closeTab_found_current_promote env tid s t0 rest hf hc hE]
        show ((updateFirst _ _ (updateFirst _ _ (t0 :: rest))).map Tab.id).Sublist _
        rw [map_updateFirst Tab.id (fun x => x.id == t0.id) (fun x => { x with frameRate := some 60 }) (fun _ => rfl),
          map_updateFirst Tab.id (fun x => x.id == t0.id)
            (fun x => { x with bounds := resolvedBoundsNoQuery env s.lastKnownBounds }) (fun _ => rfl),
          ← hE]
        exact (eraseFirst_sublist _ _).map _
    · rw [closeTab_found_not_current env tid s hf hc]
      exact (eraseFirst_sublist _ _).map _
  · have hfn : s.tabs.find? (fun t => t.id == tid) = none := by
      rcases hx : s.tabs.find? (fun t => t.id == tid) with _ | t
      · exact hx
      · rw [hx] at hf
        simp at hf
    rw [closeTab_not_found_eq env tid s hfn]

/-- C9 counterexample: the reachability relation of the code places no
freshness constraint on the `Math.random()`-derived id (for instance both
draws returning `0.5` yield the id "ii" twice), so a state whose live
collection holds two tabs with the same id is reachable - the claim's
invariant fails on it. -/
theorem duplicate_ids_reachable_counterexample :
    Reachable (createTab sampleEnv "ii" "u" true none
      (createTab sampleEnv "ii" "u" true none initState)) ∧
    ¬(ids (createTab sampleEnv "ii" "u" true none
      (createTab sampleEnv "ii" "u" true none initState))).Nodup :=
  ⟨Reachable.create _ _ _ _ _ (Reachable.create _ _ _ _ _ Reachable.init), by decide⟩

/-- C9 (amended): provided each generated id differs from every id live at
creation time (the intent of "process-unique" generation, which the code's
unchecked `Math.random()` draw makes only probabilistic), every reachable
state's live collection has pairwise distinct tab ids; ids are never mutated
by any operation. -/
theorem ids_nodup_of_reachableFresh {s : BrowserState} (h : ReachableFresh s) :
    (ids s).Nodup := by
  induction h with
  | init => simp [ids, initState]
  | create env id url activate ua hfresh _ ih =>
    rw [ids_createTab]
    simp only [List.nodup_append, List.nodup_cons, List.nodup_nil]
    exact ⟨ih, by simp, by simpa using hfresh⟩
  | switch env tid _ ih =>
    rw [ids_switchTab]
    exact ih
  | close env tid _ ih =>
    exact List.Nodup.sublist (ids_closeTab_sublist _ _ _) ih

theorem ids_nodup_of_reachableFresh_witness :
    (ids (createTab sampleEnv "b" "u2" true none
      (createTab sampleEnv "a" "u1" true none initState))).Nodup :=
  ids_nodup_of_reachableFresh
    (ReachableFresh.create _ _ _ _ _ (by decide)
      (ReachableFresh.create _ _ _ _ _ (by decide) ReachableFresh.init))

theorem switchTab_currentTab_of_found (env : Env) (tid : String) (s : BrowserState)
    (hfind : (s.tabs.find? (fun t => t.id == tid)).isSome) :
    (switchTab env tid s).currentTab = some tid := by
  rw [switchTab_found_eq env tid s hfind]

theorem createTab_activate_currentTab (env : Env) (id url : String) (ua : Option String)
    (s : BrowserState) :
    (createTab env id url true ua s).currentTab = some id := by
  unfold createTab
  simp only [resolveBoundsQuery_eq, if_true]
  show (switchTab env id _).currentTab = some id
  apply switchTab_currentTab_of_found
  apply find?_isSome_of_mem
  exact ⟨mkTab id url ua (resolvedBounds env s.lastKnownBounds), by simp, rfl⟩

/-- C10: when a page in any tab requests a new window, the installed handler
creates a tab in the same manager - appending (id, requested url, no
user-agent override) to the live collection - activates it (it becomes the
current tab), and denies the separate native window; tabs thus appear without
any bridge create-tab command. -/
theorem windowOpenHandler_denies_and_opens_tab (env : Env) (id url : String)
    (s : BrowserState) :
    (windowOpenHandler env id url s).2 = WindowOpenAction.deny ∧
    tabKeys (windowOpenHandler env id url s).1 = tabKeys s ++ [(id, url, none)] ∧
    (windowOpenHandler env id url s).1.currentTab = some id :=
  ⟨rfl, tabKeys_createTab env id url true none s,
   createTab_activate_currentTab env id url none s⟩
